/-
Verification of core properties of the ockernel repository.

Shallow embedding of the subsystems the claims concern:
  * the kernel heap allocator        (src/kernel/src/mm/heap.rs, src/kernel/src/mm/mod.rs)
  * the MLFQ scheduler               (src/kernel/src/sched.rs)
  * the USTAR initrd parser          (src/kernel/src/fs/tar.rs)
  * the i586 task code: copy-on-write fork and the foreign-memory mapper
                                     (src/src/arch/i586/tasks.rs)

Machine integers are modelled as Nat/Int; the target is i586, so usize is
32 bits.  Rust i64 division `/` truncates toward zero and is modelled by
Int.tdiv; an arithmetic right shift `>> 14` of an i64 is floor division by
2^14 and is modelled by Int `/` (Int.ediv).  Fallible paths (panics,
unwraps) are modelled by Option/Except results.
-/
import Mathlib

namespace OCK

/-! ## Scheduler data model (src/kernel/src/sched.rs) -/

/-- execution state of a task (sched.rs lines 50-55, `enum ExecMode`). -/
inductive ExecMode
| Running
| Blocked
| Exited
deriving DecidableEq

/-- the per-task data `pop_task` inspects: its `exec_mode`; `tid` only tells
tasks apart in the model. -/
structure STask where
  execMode : ExecMode
  tid : ℕ
deriving DecidableEq

/-- embedding of `Scheduler::pop_task` (sched.rs lines 186-201).  The input
list is the array of run queues ordered from priority `MAX_PRIORITY` down to
0, matching the loop `for i in (0..=MAX_PRIORITY).rev()`.  At each priority
the code pops at most one task from the `SegQueue`; a popped task whose
`exec_mode` is no longer `Running` hits `continue`, which advances the outer
`for` loop to the next lower priority.  The result carries the chosen task
and the remaining queues (the `ready_tasks` counter is decremented once per
pop and is not modelled). -/
def popTask : List (List STask) → Option (STask × List (List STask))
  | [] => none
  | [] :: rest => (popTask rest).map (fun r => (r.1, [] :: r.2))
  | (t :: ts) :: rest =>
    if t.execMode = ExecMode.Running then some (t, ts :: rest)
    else (popTask rest).map (fun r => (r.1, ts :: r.2))

/-- the Q17.14 load-average expression of `Scheduler::calc_load_avg`
(sched.rs line 163), computed in u64:
`((((59 << 14) / 60) * cur_load_avg) >> 14) + ((1 << 14) / 60) * cur_ready_tasks`.
For inputs below 2^32 (both are usize values on i586) the u64 arithmetic
cannot wrap, so plain Nat arithmetic is faithful. -/
def loadAvgRaw (loadAvg readyTasks : ℕ) : ℕ :=
  59 * 16384 / 60 * loadAvg / 16384 + 16384 / 60 * readyTasks

/-- embedding of `Scheduler::calc_load_avg` (sched.rs lines 158-167).  The
new value is stored with `new_load_avg.try_into().unwrap()`; on i586 usize
is 32 bits, so a value of 2^32 or more makes the `unwrap` panic, modelled
as `none`.  No clamping occurs on any path. -/
def calc_load_avg (loadAvg readyTasks : ℕ) : Option ℕ :=
  if loadAvgRaw loadAvg readyTasks < 2 ^ 32 then some (loadAvgRaw loadAvg readyTasks) else none

/-- `MAX_PRIORITY` (sched.rs line 26). -/
def MAX_PRIORITY : ℕ := 63

/-- embedding of the priority computation of `Scheduler::push_task`
(sched.rs lines 170-180):
`MAX_PRIORITY as i64 - (((task.cpu_time / 4) + (task.niceness * 2 * (1 << 14))) >> 14)`
then `raw_prio.max(0).min(MAX_PRIORITY as i64)`.  `cpu_time / 4` is i64
division (truncation toward zero, `Int.tdiv`); `>> 14` is an arithmetic
shift (floor division, Int `/`). -/
def push_priority (cpuTime niceness : ℤ) : ℤ :=
  min (max ((MAX_PRIORITY : ℤ) - (Int.tdiv cpuTime 4 + niceness * 2 * 16384) / 16384) 0)
    (MAX_PRIORITY : ℤ)

/-! ## `block_until` and `BlockedState` (src/kernel/src/sched.rs lines 332-448) -/

/-- the saved register context as far as `block_until` observes it:
`sysRet` is the slot written by `Registers::syscall_return` (a
`Result<usize, usize>`), `rest` stands for all other register content. -/
structure Regs where
  sysRet : Option (Except ℕ ℕ)
  rest : ℕ

/-- effect of `registers.syscall_return(result)` on the saved registers. -/
def Regs.syscallReturn (r : Regs) (res : Except ℕ ℕ) : Regs :=
  { r with sysRet := some res }

/-- the state `block_until` and `BlockedState::syscall_return` act on: the
blocked task's `exec_mode` and saved registers, the shared `must_requeue`
atomic, whether the task was pushed back onto the scheduler, and (ghost,
for stating the claim) the `must_requeue` value read by `syscall_return`'s
requeue check. -/
structure BUState where
  execMode : ExecMode
  taskRegs : Regs
  mustRequeue : Bool
  queued : Bool
  flagSeen : Option Bool

/-- embedding of `BlockedState::syscall_return` (sched.rs lines 346-361):
if the task is already `Running` the call is a no-op; otherwise it sets
`exec_mode = Running`, writes the result into the saved registers, and
pushes the task onto the scheduler only if `must_requeue` is set. -/
def BlockedState.syscall_return (s : BUState) (res : Except ℕ ℕ) : BUState :=
  if s.execMode = ExecMode.Running then s
  else
    let s1 : BUState :=
      { s with
        execMode := ExecMode.Running
        taskRegs := s.taskRegs.syscallReturn res
        flagSeen := some s.mustRequeue }
    if s1.mustRequeue then { s1 with queued := true } else s1

/-- embedding of `block_until` (sched.rs lines 391-448) in the scenario the
claim conditions on: the async operation started by the setup callback
completes synchronously, i.e. the callback's future consumes the
`BlockedState` token via `syscall_return res` before `AsyncTask::new`
returns.  Modelled from the spec for the one piece outside src/:
`crate::futures::AsyncTask::new` runs the setup future ("invoke
`setup(task, token)` which initiates an async operation"); everything else
follows sched.rs.  The steps, in program order: mark the task `Blocked` and
save `registers` into it; create `must_requeue = false`; run the callback
(here: it completes, calling `syscall_return res`); store `true` into
`must_requeue`; finally, if the task is `Running` again, reload `registers`
from the task and return, otherwise call `context_switch`.  The result is
(final task state, registers seen by the caller on return, whether
`context_switch` was invoked). -/
def block_until_sync (regs : Regs) (res : Except ℕ ℕ) : BUState × Regs × Bool :=
  let s0 : BUState :=
    { execMode := ExecMode.Blocked
      taskRegs := regs
      mustRequeue := false
      queued := false
      flagSeen := none }
  let s1 := BlockedState.syscall_return s0 res
  let s2 : BUState := { s1 with mustRequeue := true }
  if s2.execMode = ExecMode.Running then (s2, s2.taskRegs, false) else (s2, regs, true)

/-! ## USTAR parser (src/kernel/src/fs/tar.rs) -/

/-- byte widths of the fields of `struct Header` (tar.rs lines 29-48), in
declaration order; the struct is `repr(C)` over byte arrays, `TarNumber<N>`
is `GenericArray<u8, N>` and `EntryKind` is `repr(u8)`, so
`size_of::<Header>()` is the plain sum (500, not a full 512-byte block). -/
def headerFieldSizes : List ℕ := [100, 8, 8, 8, 12, 12, 8, 1, 100, 6, 2, 32, 32, 8, 8, 155]

/-- `size_of::<Header>()`. -/
def headerSize : ℕ := headerFieldSizes.sum

/-- per-byte term of the checksum sum (tar.rs line 324):
`if (148..156).contains(&i) { 32 } else { *b as usize }`. -/
def checksumByte (i b : ℕ) : ℕ := if 148 ≤ i ∧ i < 156 then 32 else b

/-- embedding of the `actual_checksum` computation of `TarIterator::next`
(tar.rs lines 321-325): the sum runs over
`self.data[offset..offset + size_of::<Header>()]`, i.e. over the first 500
bytes of the header block (the entry's `offset` is 0 here; bytes past the
end of `data` read as 0, which only matters for blocks shorter than 500). -/
def actualChecksum (data : List ℕ) : ℕ :=
  ((List.range headerSize).map (fun i => checksumByte i (data.getD i 0))).sum

/-- Modelled from the spec: the USTAR checksum over the whole 512-byte
header block, "sum of all 512 bytes with the checksum field treated as
eight spaces".  Stated only to compare with `actualChecksum`. -/
def specChecksum (data : List ℕ) : ℕ :=
  ((List.range 512).map (fun i => checksumByte i (data.getD i 0))).sum

/-- a concrete 512-byte header block: byte 0 is 65 (a nonempty name), byte
500 (inside the 12 padding bytes past `size_of::<Header>()`) is 7, all
other bytes 0. -/
def cexBlock : List ℕ := 65 :: (List.replicate 499 0 ++ 7 :: List.replicate 11 0)

/-! ## Kernel heap (src/kernel/src/mm/heap.rs) -/

/-- the local `fn align` of `HeapAllocator::alloc` (heap.rs lines 51-53):
`(unaligned / alignment) * alignment + alignment`. -/
def align (unaligned alignment : ℕ) : ℕ := unaligned / alignment * alignment + alignment

/-- `core::alloc::Layout`: a size and an alignment. -/
structure RLayout where
  size : ℕ
  alignment : ℕ
deriving DecidableEq

/-- the new-top computation of `HeapAllocator::alloc` (heap.rs lines 56-59):
```
let new_top = align(current_top, reserved_layout.align()) + reserved_layout.size();
let new_top = (align(new_top, layout.align()) + layout.size()).max(self.max_size);
let new_top = align(new_top, PROPERTIES.page_size);
```
Note the `.max(self.max_size)`: the computed top is taken to be at least
`max_size` and is never compared against it as a bound. -/
def newTop (currentTop maxSize : ℕ) (reservedLayout allocLayout : RLayout) (pageSize : ℕ) : ℕ :=
  align (max (align (align currentTop reservedLayout.alignment + reservedLayout.size)
      allocLayout.alignment + allocLayout.size) maxSize) pageSize

/-- the heap state the reserve discipline acts on: the heap top and the
`reserved_memory` region (`Option<Reserved>`; only its presence matters). -/
structure HeapSt where
  top : ℕ
  reserve : Option Unit
deriving DecidableEq

/-- Modelled from the spec: `set_page_no_alloc(virt, entry, reserved)`
(mm/paging.rs is not under src/; heap.rs lines 77-85 are its only caller
here).  Per the spec it "never recurses into the heap because a
caller-supplied reserved frame is consumed for any required page-table
allocation": when installing the entry needs a new page table and no
reserved memory is supplied it fails with `AllocError` (the `.error` case);
otherwise it succeeds. -/
def set_page_no_alloc (needsTable : Bool) (reserved : Option Unit) : Except Unit Unit :=
  if needsTable && reserved.isNone then Except.error () else Except.ok ()

/-- embedding of the `alloc_pages` loop of `HeapAllocator::alloc` (heap.rs
lines 64-91).  `pages` lists, per new heap page, whether installing it
needs a fresh page table.  Each page is first installed with
`set_page_no_alloc(..., None)`; only on `AllocError` is the call retried
with `reserved_memory.take()`.  Frame allocation (`alloc_frame`) is not a
subject of the claims and is taken to succeed.  Returns the final
`reserved_memory` and whether the loop succeeded. -/
def allocPagesLoop : List Bool → Option Unit → Option Unit × Bool
  | [], r => (r, true)
  | nt :: rest, r =>
    match set_page_no_alloc nt none with
    | Except.ok _ => allocPagesLoop rest r
    | Except.error _ =>
      match set_page_no_alloc nt r with
      | Except.ok _ => allocPagesLoop rest none
      | Except.error _ => (none, false)

/-- embedding of the growth half of `HeapAllocator::alloc` (heap.rs lines
93-128) around `allocPagesLoop`: on loop failure every page mapped in this
attempt is unmapped and freed again (heap.rs lines 96-114) and the top does
not move; on success the heap is extended to `growTo` and, if the reserve
was consumed, `Reserved::allocate()` is attempted (its outcome is the
`replenish` parameter); if that fails the reserve is left empty (heap.rs
lines 123-128).  Returns the new state and whether growth succeeded. -/
def heapGrow (st : HeapSt) (pages : List Bool) (growTo : ℕ) (replenish : Option Unit) :
    HeapSt × Bool :=
  match allocPagesLoop pages st.reserve with
  | (r, false) => ({ st with reserve := r }, false)
  | (r, true) =>
    let st1 : HeapSt := { top := growTo, reserve := r }
    if st1.reserve.isNone then ({ st1 with reserve := replenish }, true) else (st1, true)

/-! ## Heap deallocation (src/kernel/src/mm/heap.rs lines 136-145,
src/kernel/src/mm/mod.rs lines 49-55) -/

/-- a block on the free list of `linked_list_allocator::Heap`. -/
structure FreeBlock where
  addr : ℕ
  size : ℕ
deriving DecidableEq

/-- the parts of `linked_list_allocator::Heap` that `dealloc` touches: the
heap bounds and the free list. -/
structure LLHeap where
  bottom : ℕ
  top : ℕ
  free : List FreeBlock
deriving DecidableEq

/-- model of `Heap::deallocate` of the linked_list_allocator crate: the
block is returned to the free list (coalescing details are immaterial to
the claims). -/
def LLHeap.deallocate (h : LLHeap) (ptr size : ℕ) : LLHeap :=
  { h with free := ⟨ptr, size⟩ :: h.free }

/-- embedding of `HeapAllocator::dealloc` (heap.rs lines 136-145):
`if ptr < self.heap.bottom() || ptr >= self.heap.top()` only a debug
message is emitted, otherwise `heap.deallocate` runs.  The Bool records
whether the can't-free message was logged. -/
def HeapAllocator.dealloc (h : LLHeap) (ptr size : ℕ) : LLHeap × Bool :=
  if ptr < h.bottom ∨ h.top ≤ ptr then (h, true) else (h.deallocate ptr size, false)

/-- `enum AllocState` (mm/mod.rs lines 25-29); the bump allocator's own
state does not matter for deallocation. -/
inductive AllocState
| none
| bumpAlloc (nextFree : ℕ)
| heap (h : LLHeap)
deriving DecidableEq

/-- embedding of `CustomAlloc::dealloc` (mm/mod.rs lines 49-55): with a live
heap it defers to `HeapAllocator::dealloc`; in every other state it only
logs `can't free` and changes nothing (the Bool records that a message was
logged). -/
def CustomAlloc.dealloc : AllocState → ℕ → ℕ → AllocState × Bool
  | AllocState.heap h, ptr, size =>
    let r := HeapAllocator.dealloc h ptr size
    (AllocState.heap r.1, r.2)
  | st, _, _ => (st, true)

/-! ## Copy-on-write fork (src/src/arch/i586/tasks.rs lines 92-126, 402-437) -/

/-- a page-table entry as `copy_on_write_from` sees it: `is_unused`, the
ReadWrite and CopyOnWrite flag bits, and the physical address. -/
structure Page where
  unused : Bool
  readWrite : Bool
  copyOnWrite : Bool
  address : ℕ
deriving DecidableEq

/-- a fresh entry of a newly created page table. -/
def Page.blank : Page := ⟨true, false, false, 0⟩

/-- the flag transformation of `copy_on_write_from` (tasks.rs lines
111-116): `if flags & ReadWrite != 0 { flags &= !ReadWrite; flags |= CopyOnWrite }`
on the (ReadWrite, CopyOnWrite) pair. -/
def cowFlags : Bool × Bool → Bool × Bool
  | (rw, cow) => if rw then (false, true) else (rw, cow)

/-- the child's entry for a used parent entry (tasks.rs lines 108-121):
same address, flags run through `cowFlags`. -/
def cowPage (p : Page) : Page :=
  { unused := false
    readWrite := (cowFlags (p.readWrite, p.copyOnWrite)).1
    copyOnWrite := (cowFlags (p.readWrite, p.copyOnWrite)).2
    address := p.address }

/-- the child's entry at any slot of a copied table: unused parent slots
stay blank (the child's table is created by `get_page(addr, true)` with all
entries unused and only used slots are written). -/
def childPage (p : Page) : Page := if p.unused then Page.blank else cowPage p

/-- a page table: the 1024 entries of one 4 MiB region (kept as a list; the
loop `for addr in ((i << 22)..((i + 1) << 22)).step_by(PAGE_SIZE)` visits
every entry in order). -/
abbrev PTable := List Page

/-- the child's table for a non-null parent table: `none` when every parent
entry is unused (then `get_page(addr, true)` is never called and the
child's table stays null), otherwise every slot mapped through
`childPage`. -/
def cowTable (t : PTable) : Option PTable :=
  if t.all (fun p => p.unused) then none else some (t.map childPage)

/-- the physical addresses passed to `add_page_reference` while copying one
table (tasks.rs line 121): one per used entry, in iteration order. -/
def tableRefs (t : PTable) : List ℕ :=
  (t.filter (fun p => !p.unused)).map (fun p => p.address)

/-- the user half of a page directory: one optional table per directory
slot (`dir.tables[i].is_null()` is the `none` case). -/
abbrev UserDir := List (Option PTable)

/-- embedding of `TaskState::copy_on_write_from` (tasks.rs lines 92-126)
over the user half of the parent directory: returns the child's user half
and the list of `add_page_reference` calls.  The code reads the parent's
entries through `orig_page` but never writes them (no `set_flags` or
`set_address` on `orig_page`), so the parent directory is not an output. -/
def copy_on_write_from (dir : UserDir) : UserDir × List ℕ :=
  (dir.map (fun ot => ot.bind cowTable),
    dir.flatMap (fun ot => (ot.map tableRefs).getD []))

/-- `add_page_reference(addr, owner)`: one more reference to the frame at
`addr` (the owner tag is informational). -/
def add_page_reference (refs : ℕ → ℕ) (a : ℕ) : ℕ → ℕ :=
  fun x => if x = a then refs x + 1 else refs x

/-- all reference-count increments of one fork, applied in order. -/
def addRefs (refs : ℕ → ℕ) : List ℕ → ℕ → ℕ
  | [] => refs
  | a :: rest => addRefs (add_page_reference refs a) rest

/-- outcome of `fork_task` as far as the directories and the frame
reference table are concerned. -/
structure ForkOutcome where
  parentUser : UserDir
  childUser : UserDir
  childKernel : UserDir
  refs : ℕ → ℕ

/-- embedding of the directory work of `fork_task` (tasks.rs lines
402-437): the child's user half comes from
`state.copy_on_write_from(&mut current.state.pages, 0, kernel_start, ..)`,
its kernel half from `state.copy_pages_from(dir, kernel_start, 1024)`
(entries copied verbatim from the kernel directory, no copy-on-write), and
each copied used page increments the frame reference table.  The parent's
directory is returned unchanged, as in the source. -/
def fork_task (parentUser kernelHalf : UserDir) (refs : ℕ → ℕ) : ForkOutcome :=
  { parentUser := parentUser
    childUser := (copy_on_write_from parentUser).1
    childKernel := kernelHalf
    refs := addRefs refs (copy_on_write_from parentUser).2 }

/-- the table at directory slot `i`, if present. -/
def lookupTable (dir : UserDir) (i : ℕ) : Option PTable := (dir[i]?).join

/-- the page entry at directory slot `i`, table slot `j`, if the table is
present. -/
def lookupPage (dir : UserDir) (i j : ℕ) : Option Page :=
  (lookupTable dir i).bind (fun t => t[j]?)

/-- concrete one-page parent directory: a single present, writable,
non-copy-on-write user page at frame address 42. -/
def cexParent : UserDir := [some [⟨false, true, false, 42⟩]]

/-! ## Foreign-memory mapper (src/src/arch/i586/tasks.rs lines 204-283) -/

/-- pointwise update of a mapping. -/
def updMap (m : ℕ → ℕ) (k v : ℕ) : ℕ → ℕ := fun x => if x = k then v else m x

/-- Modelled from the spec for `alloc_pages_at` (arch/i586/paging.rs is not
under src/): installing `phys` at one kernel virtual page replaces that
page's physical address.  `installPages` is the loop
`for i in (start..end).step_by(PAGE_SIZE) { ...; alloc_pages_at(virt, 1, phys, ..) }`
of `map_task_in` (tasks.rs lines 248-264) and likewise the restore loop of
`map_task_out` (lines 276-279), at page granularity: consecutive kernel
pages starting at `ptrPage` are pointed at the listed physical pages. -/
def installPages (m : ℕ → ℕ) (ptrPage : ℕ) : List ℕ → ℕ → ℕ
  | [] => m
  | p :: rest => installPages (updMap m ptrPage p) (ptrPage + 1) rest

/-- the `existing_phys` capture loop of `map_task_in` (tasks.rs lines
239-243): the physical addresses the kernel buffer pages point at before
any remapping. -/
def savedPhys (m : ℕ → ℕ) (ptrPage n : ℕ) : List ℕ :=
  (List.range n).map (fun j => m (ptrPage + j))

/-- embedding of `TaskState::map_task_in` (tasks.rs lines 204-270) as it
acts on the kernel directory's mapping `m`: the buffer pages at `ptrPage`
are saved into `existing_phys` and then remapped onto the task's physical
pages (which come from the task's own directory and are independent of
`m`).  Returns the new kernel mapping and the saved list. -/
def map_task_in (m : ℕ → ℕ) (ptrPage : ℕ) (physPages : List ℕ) : (ℕ → ℕ) × List ℕ :=
  (installPages m ptrPage physPages, savedPhys m ptrPage physPages.length)

/-- embedding of `TaskState::map_task_out` (tasks.rs lines 272-283): every
buffer page is pointed back at its entry of `existing_phys`. -/
def map_task_out (m : ℕ → ℕ) (ptrPage : ℕ) (saved : List ℕ) : ℕ → ℕ :=
  installPages m ptrPage saved

/-- the whole primitive as `read_mem`/`write_mem` run it (tasks.rs lines
286-309): map the task pages in, copy (the copy step does not touch the
kernel directory), map back out. -/
def with_mapped (m : ℕ → ℕ) (ptrPage : ℕ) (physPages : List ℕ) : ℕ → ℕ :=
  map_task_out (map_task_in m ptrPage physPages).1 ptrPage (map_task_in m ptrPage physPages).2

/-! ## Helper lemmas -/

/-- the local `align` always lands strictly above its input. -/
theorem lt_align (u : ℕ) {a : ℕ} (h : 0 < a) : u < align u a := Nat.lt_div_mul_add h

/-- applying the recorded reference increments adds the number of
occurrences of an address. -/
theorem addRefs_apply (l : List ℕ) :
    ∀ (f : ℕ → ℕ) (a : ℕ), addRefs f l a = f a + l.count a := by
  induction l with
  | nil =>
    intro f a
    simp [addRefs]
  | cons x xs ih =>
    intro f a
    rw [addRefs, ih, List.count_cons]
    simp only [add_page_reference, beq_iff_eq]
    by_cases h : a = x
    · subst h
      simp
      omega
    · rw [if_neg h, if_neg (fun e : x = a => h e.symm)]
      simp

/-! ## C1 — heap growth versus the heap maximum (src/kernel/src/mm/heap.rs) -/

/-- C1: the growth target computed by `HeapAllocator::alloc` is
`(align(...) + layout.size()).max(self.max_size)` rounded up to a page:
for every input it lies strictly past `max_size`, so the path the claim
describes — failing and leaving the heap unchanged when the required top
exceeds the maximum — does not exist; the allocator never compares the new
top against `max_size` as a bound and maps pages past it. -/
theorem heap_growth_ignores_max :
    ∀ (currentTop maxSize : ℕ) (rL aL : RLayout) (pageSize : ℕ), 0 < pageSize →
      maxSize < newTop currentTop maxSize rL aL pageSize := by
  intro ct ms rL aL ps hp
  unfold newTop
  exact lt_of_le_of_lt (le_max_right _ ms) (lt_align _ hp)

/-- witness for C1: with a page size of 4096, a page-table reserved layout
of 4096 bytes, a 16-byte request, heap top 0x2000 and `max_size` 0x2000,
the computed new top (0x5000) lies past the maximum. -/
theorem heap_growth_ignores_max_witness :
    0 < 4096 ∧ 8192 < newTop 8192 8192 ⟨4096, 4096⟩ ⟨16, 8⟩ 4096 :=
  ⟨by decide, heap_growth_ignores_max 8192 8192 ⟨4096, 4096⟩ ⟨16, 8⟩ 4096 (by decide)⟩

/-! ## C3 — `pop_task` (src/kernel/src/sched.rs) -/

/-- C3 counterexample: one queue holding a `Blocked` task ahead of a
`Running` task.  `pop_task` pops the stale task, discards it, and the
`continue` moves to the next lower priority, so nothing is picked — the
claim predicts the `Running` task at the same priority is picked. -/
theorem pop_task_same_priority_cex :
    popTask [[⟨ExecMode.Blocked, 1⟩, ⟨ExecMode.Running, 2⟩]] = none := by decide

/-- C3 amended: scanning from `MAX_PRIORITY` downward, `pop_task` inspects
at most one task per queue: at the first nonempty queue it pops the head
and picks it if still `Running`; otherwise the head is discarded without
being credited and the scan continues at strictly lower priorities, so a
`Running` task behind the stale head is not picked in this invocation (it
stays queued). -/
theorem pop_task_amended :
    ∀ (pre : List (List STask)) (t : STask) (ts : List STask) (rest : List (List STask)),
      (∀ q ∈ pre, q = []) →
      popTask (pre ++ (t :: ts) :: rest) =
        if t.execMode = ExecMode.Running then some (t, pre ++ ts :: rest)
        else (popTask rest).map (fun r => (r.1, pre ++ ts :: r.2)) := by
  intro pre
  induction pre with
  | nil =>
    intro t ts rest _
    by_cases hr : t.execMode = ExecMode.Running
    · simp [popTask, hr]
    · simp [popTask, hr]
  | cons q qs ih =>
    intro t ts rest h
    have hq : q = [] := h q (List.mem_cons_self q qs)
    subst hq
    rw [List.cons_append]
    have hqs : ∀ x ∈ qs, x = [] := fun x hx => h x (List.mem_cons_of_mem _ hx)
    by_cases hr : t.execMode = ExecMode.Running
    · simp [popTask, ih t ts rest hqs, hr]
    · simp only [popTask, ih t ts rest hqs, hr, if_false, if_neg hr, Option.map_map]
      cases popTask rest with
      | none => rfl
      | some r => rfl

/-- witness for C3's amended theorem: an empty top queue, then a stale
`Exited` head in front of a `Running` task, with one `Running` task at a
lower priority: the lower-priority task is picked. -/
theorem pop_task_amended_witness :
    popTask [[], [⟨ExecMode.Exited, 1⟩, ⟨ExecMode.Running, 2⟩], [⟨ExecMode.Running, 3⟩]] =
      some (⟨ExecMode.Running, 3⟩, [[], [⟨ExecMode.Running, 2⟩], []]) := by
  rw [show ([[], [⟨ExecMode.Exited, 1⟩, ⟨ExecMode.Running, 2⟩], [⟨ExecMode.Running, 3⟩]] :
      List (List STask)) =
      [[]] ++ (⟨ExecMode.Exited, 1⟩ :: [⟨ExecMode.Running, 2⟩]) :: [[⟨ExecMode.Running, 3⟩]]
      from rfl]
  rw [pop_task_amended [[]] ⟨ExecMode.Exited, 1⟩ [⟨ExecMode.Running, 2⟩]
    [[⟨ExecMode.Running, 3⟩]] (by decide)]
  decide

/-! ## C5 — Q17.14 overflow behaviour (src/kernel/src/sched.rs) -/

/-- C5 counterexample: with `load_avg = 0` and `ready_tasks = 2^32 - 1`
(both representable usize states), the new load average exceeds
`usize::MAX`, so `calc_load_avg` panics at the `unwrap` instead of
clamping. -/
theorem calc_load_avg_halts_cex : calc_load_avg 0 (2 ^ 32 - 1) = none := by decide

/-- C5 amended: the Q17.14 computations do not clamp on overflow:
`calc_load_avg` stores the raw value whenever it fits in usize and halts
(panicking `unwrap` on the usize conversion, the `none` case) whenever it
does not. -/
theorem calc_load_avg_amended :
    ∀ l r : ℕ,
      (2 ^ 32 ≤ loadAvgRaw l r → calc_load_avg l r = none) ∧
      (loadAvgRaw l r < 2 ^ 32 → calc_load_avg l r = some (loadAvgRaw l r)) := by
  intro l r
  constructor
  · intro h
    unfold calc_load_avg
    rw [if_neg (by omega)]
  · intro h
    unfold calc_load_avg
    rw [if_pos h]

/-- witness for C5's amended theorem at both branches. -/
theorem calc_load_avg_amended_witness :
    (2 ^ 32 ≤ loadAvgRaw 1 (2 ^ 31) ∧ calc_load_avg 1 (2 ^ 31) = none) ∧
      (loadAvgRaw 3 5 < 2 ^ 32 ∧ calc_load_avg 3 5 = some (loadAvgRaw 3 5)) :=
  ⟨⟨by decide, (calc_load_avg_amended 1 (2 ^ 31)).1 (by decide)⟩,
    ⟨by decide, (calc_load_avg_amended 3 5).2 (by decide)⟩⟩

/-! ## C8 — synchronous completion in `block_until` (src/kernel/src/sched.rs) -/

/-- C8: when the async operation completes synchronously inside the setup
callback, the task's `exec_mode` is `Running` again before `block_until`
returns, the requeue flag read by the completion's requeue check is
`false`, the task is not pushed back onto the scheduler, no context switch
happens, and the registers the caller gets back carry the operation's
result in the syscall-return slot. -/
theorem block_until_sync_ok :
    ∀ (regs : Regs) (res : Except ℕ ℕ),
      (block_until_sync regs res).1.execMode = ExecMode.Running ∧
      (block_until_sync regs res).1.flagSeen = some false ∧
      (block_until_sync regs res).1.queued = false ∧
      (block_until_sync regs res).2.2 = false ∧
      (block_until_sync regs res).2.1 = { regs with sysRet := some res } := by
  intro regs res
  exact ⟨rfl, rfl, rfl, rfl, rfl⟩

/-! ## C9 — priority formula monotonicity (src/kernel/src/sched.rs) -/

/-- truncating division by 4 (Rust i64 `/`) is monotone. -/
theorem tdiv_four_mono {a b : ℤ} (h : a ≤ b) : Int.tdiv a 4 ≤ Int.tdiv b 4 := by
  rcases le_or_lt 0 a with ha | ha
  · rw [Int.tdiv_eq_ediv ha (by norm_num), Int.tdiv_eq_ediv (le_trans ha h) (by norm_num)]
    exact Int.ediv_le_ediv (by norm_num) h
  · rcases le_or_lt 0 b with hb | hb
    · have h1 : (0 : ℤ) ≤ Int.tdiv (-a) 4 := Int.tdiv_nonneg (by omega) (by norm_num)
      have h2 : Int.tdiv (-a) 4 = -Int.tdiv a 4 := Int.neg_tdiv a 4
      have h3 : (0 : ℤ) ≤ Int.tdiv b 4 := Int.tdiv_nonneg hb (by norm_num)
      omega
    · have ea : Int.tdiv (-a) 4 = (-a) / 4 := Int.tdiv_eq_ediv (by omega) (by norm_num)
      have eb : Int.tdiv (-b) 4 = (-b) / 4 := Int.tdiv_eq_ediv (by omega) (by norm_num)
      have hna : Int.tdiv (-a) 4 = -Int.tdiv a 4 := Int.neg_tdiv a 4
      have hnb : Int.tdiv (-b) 4 = -Int.tdiv b 4 := Int.neg_tdiv b 4
      have hd : (-b) / 4 ≤ (-a) / 4 := Int.ediv_le_ediv (by norm_num) (by omega)
      omega

/-- C9: the push priority
`clamp(MAX_PRIORITY - ((cpu_time / 4 + niceness * 2 * 2^14) >> 14), 0, MAX_PRIORITY)`
is antitone in `cpu_time` for fixed niceness: more CPU time never yields a
higher priority. -/
theorem push_priority_monotone :
    ∀ (niceness c₁ c₂ : ℤ), c₁ ≤ c₂ →
      push_priority c₂ niceness ≤ push_priority c₁ niceness := by
  intro n c1 c2 h
  unfold push_priority
  have h1 : Int.tdiv c1 4 + n * 2 * 16384 ≤ Int.tdiv c2 4 + n * 2 * 16384 :=
    add_le_add_right (tdiv_four_mono h) _
  have h2 := Int.ediv_le_ediv (by norm_num : (0 : ℤ) < 16384) h1
  have h3 := sub_le_sub_left h2 (MAX_PRIORITY : ℤ)
  exact min_le_min (max_le_max h3 le_rfl) le_rfl

/-- witness for C9: 100 Q17.14 CPU-time units versus none, niceness 0. -/
theorem push_priority_monotone_witness :
    (0 : ℤ) ≤ 1638400 ∧ push_priority 1638400 0 ≤ push_priority 0 0 :=
  ⟨by decide, push_priority_monotone 0 0 1638400 (by decide)⟩

/-! ## C10 — deallocation outside the heap (src/kernel/src/mm) -/

/-- C10: a pointer outside `[bottom, top)` makes `HeapAllocator::dealloc` a
pure no-op apart from the log message, and `CustomAlloc::dealloc` in any
state without a live heap likewise only logs; neither panics (both paths
are total in the model and return the state unchanged). -/
theorem dealloc_out_of_bounds_noop :
    ∀ (h : LLHeap) (ptr size : ℕ),
      (ptr < h.bottom ∨ h.top ≤ ptr → HeapAllocator.dealloc h ptr size = (h, true)) ∧
      (∀ st : AllocState, (∀ hs : LLHeap, st ≠ AllocState.heap hs) →
        CustomAlloc.dealloc st ptr size = (st, true)) := by
  intro h ptr size
  constructor
  · intro hb
    unfold HeapAllocator.dealloc
    rw [if_pos hb]
  · intro st hst
    cases st with
    | none => rfl
    | bumpAlloc n => rfl
    | heap hs => exact absurd rfl (hst hs)

/-- witness for C10: freeing the null pointer against a heap spanning
[4096, 8192), and the allocator-not-initialized state. -/
theorem dealloc_out_of_bounds_noop_witness :
    HeapAllocator.dealloc ⟨4096, 8192, []⟩ 0 16 = (⟨4096, 8192, []⟩, true) ∧
      CustomAlloc.dealloc AllocState.none 0 16 = (AllocState.none, true) :=
  ⟨(dealloc_out_of_bounds_noop ⟨4096, 8192, []⟩ 0 16).1 (Or.inl (by decide)),
    (dealloc_out_of_bounds_noop ⟨4096, 8192, []⟩ 0 16).2 AllocState.none
      (fun hs hcon => AllocState.noConfusion hcon)⟩

/-! ## C4 — USTAR checksum width (src/kernel/src/fs/tar.rs) -/

set_option maxRecDepth 4000 in
/-- C4 counterexample: a 512-byte header block whose byte 500 — inside the
12 padding bytes past `size_of::<Header>()` — is nonzero.  The checksum the
parser computes (over the first 500 bytes) differs from the 512-byte sum
the claim states. -/
theorem tar_checksum_500_cex : actualChecksum cexBlock ≠ specChecksum cexBlock := by decide

/-- C4 amended: the parser's checksum is the sum of the first
`size_of::<Header>()` = 500 bytes of the block, with offsets 148..156 read
as spaces; it coincides with the 512-byte USTAR sum exactly on blocks whose
trailing 12 bytes are zero. -/
theorem tar_checksum_amended :
    ∀ data : List ℕ, (∀ i, headerSize ≤ i → i < 512 → data.getD i 0 = 0) →
      actualChecksum data = specChecksum data := by
  intro data h
  have h500 : headerSize = 500 := rfl
  unfold specChecksum actualChecksum
  rw [show (512 : ℕ) = headerSize + 12 from rfl, List.range_add, List.map_append,
    List.sum_append, List.map_map]
  have hz : ((List.range 12).map
      ((fun i => checksumByte i (data.getD i 0)) ∘ (fun x => headerSize + x))).sum = 0 := by
    apply List.sum_eq_zero
    intro x hx
    rcases List.mem_map.mp hx with ⟨j, hj, hxe⟩
    have hj12 : j < 12 := List.mem_range.mp hj
    rw [← hxe]
    show checksumByte (headerSize + j) (data.getD (headerSize + j) 0) = 0
    rw [h500]
    unfold checksumByte
    rw [if_neg (by omega)]
    exact h (500 + j) (by omega) (by omega)
  rw [hz]
  omega

/-- witness for C4's amended theorem: the all-zero (empty-data) block, on
which both sums are the eight checksum-field spaces. -/
theorem tar_checksum_amended_witness : actualChecksum [] = specChecksum [] :=
  tar_checksum_amended [] (fun _ _ _ => rfl)

/-! ## C6 — foreign-memory mapper round trip (src/src/arch/i586/tasks.rs) -/

/-- pages outside the remapped buffer are untouched by the install loop. -/
theorem installPages_out (l : List ℕ) :
    ∀ (m : ℕ → ℕ) (ptr x : ℕ), x < ptr ∨ ptr + l.length ≤ x →
      installPages m ptr l x = m x := by
  induction l with
  | nil =>
    intro m ptr x _
    rfl
  | cons p rest ih =>
    intro m ptr x hx
    rw [List.length_cons] at hx
    rw [installPages, ih (updMap m ptr p) (ptr + 1) x (by omega)]
    unfold updMap
    rw [if_neg (by omega)]

/-- inside the buffer, the install loop writes the listed page. -/
theorem installPages_at (l : List ℕ) :
    ∀ (m : ℕ → ℕ) (ptr j : ℕ), j < l.length →
      installPages m ptr l (ptr + j) = l.getD j 0 := by
  induction l with
  | nil =>
    intro m ptr j hj
    simp at hj
  | cons p rest ih =>
    intro m ptr j hj
    cases j with
    | zero =>
      rw [installPages, installPages_out rest _ _ _ (Or.inl (by omega))]
      unfold updMap
      simp
    | succ k =>
      rw [installPages, show ptr + (k + 1) = (ptr + 1) + k from by omega,
        ih _ _ k (by rw [List.length_cons] at hj; omega)]
      rfl

/-- the `existing_phys` list holds the pre-call physical addresses. -/
theorem savedPhys_getD (m : ℕ → ℕ) (ptr n j : ℕ) (hj : j < n) :
    (savedPhys m ptr n).getD j 0 = m (ptr + j) := by
  unfold savedPhys
  rw [List.getD_eq_getElem?_getD, List.getElem?_map, List.getElem?_range hj]
  rfl

/-- `existing_phys` has one entry per buffer page. -/
theorem savedPhys_length (m : ℕ → ℕ) (ptr n : ℕ) : (savedPhys m ptr n).length = n := by
  simp [savedPhys]

/-- C6: running the foreign-memory primitive — `map_task_in` saving
`existing_phys` and remapping the kernel buffer pages onto the task's
physical pages, then the copy step (which does not touch the kernel
directory), then `map_task_out` restoring `existing_phys` — leaves every
kernel virtual page mapped to the exact physical address it had before the
call: the kernel directory's mapping is unchanged at every page. -/
theorem with_mapped_restores :
    ∀ (m : ℕ → ℕ) (ptrPage : ℕ) (physPages : List ℕ) (x : ℕ),
      with_mapped m ptrPage physPages x = m x := by
  intro m ptr l x
  unfold with_mapped map_task_out map_task_in
  by_cases h1 : x < ptr ∨ ptr + l.length ≤ x
  · rw [installPages_out _ _ _ _ (by rw [savedPhys_length]; exact h1)]
    exact installPages_out l m ptr x h1
  · push_neg at h1
    obtain ⟨hlo, hhi⟩ := h1
    obtain ⟨j, hj, hx⟩ : ∃ j, j < l.length ∧ x = ptr + j := ⟨x - ptr, by omega, by omega⟩
    subst hx
    rw [installPages_at _ _ _ _ (by rw [savedPhys_length]; exact hj)]
    exact savedPhys_getD m ptr l.length j hj

/-! ## C7 — the heap's reserved-memory discipline (src/kernel/src/mm/heap.rs) -/

/-- pages that need no fresh page table never touch the reserve. -/
theorem allocPagesLoop_all_false (pages : List Bool) :
    ∀ r, pages.all (fun nt => !nt) = true → allocPagesLoop pages r = (r, true) := by
  induction pages with
  | nil =>
    intro r _
    rfl
  | cons nt rest ih =>
    intro r hall
    rw [List.all_cons, Bool.and_eq_true] at hall
    obtain ⟨hnt, hrest⟩ := hall
    have hn : nt = false := by
      cases nt
      · rfl
      · exact absurd hnt (by decide)
    subst hn
    exact ih r hrest

/-- once some page needs a table, the loop always ends with the reserve
gone (either consumed for the table or already empty). -/
theorem allocPagesLoop_reserve_gone (pages : List Bool) :
    ∀ r, true ∈ pages → (allocPagesLoop pages r).1 = none := by
  induction pages with
  | nil =>
    intro r hmem
    simp at hmem
  | cons nt rest ih =>
    intro r hmem
    cases nt with
    | false =>
      have : true ∈ rest := by simpa using hmem
      exact ih r this
    | true =>
      cases r with
      | none => rfl
      | some u =>
        show (allocPagesLoop rest none).1 = none
        by_cases hm : true ∈ rest
        · exact ih none hm
        · have hall : rest.all (fun nt => !nt) = true := by
            rw [List.all_eq_true]
            intro x hx
            cases x with
            | false => rfl
            | true => exact absurd hx hm
          rw [allocPagesLoop_all_false rest none hall]


/-- with an empty reserve, any page needing a table fails the loop. -/
theorem allocPagesLoop_none_fails (pages : List Bool) :
    true ∈ pages → allocPagesLoop pages none = (none, false) := by
  induction pages with
  | nil =>
    intro hmem
    simp at hmem
  | cons nt rest ih =>
    intro hmem
    cases nt with
    | false =>
      have : true ∈ rest := by simpa using hmem
      exact ih this
    | true => rfl

/-- with a full reserve and at most one page needing a table, the loop
succeeds, consuming the reserve exactly when some page needed a table. -/
theorem allocPagesLoop_le_one (pages : List Bool) :
    List.count true pages ≤ 1 →
      allocPagesLoop pages (some ()) =
        (if true ∈ pages then none else some (), true) := by
  induction pages with
  | nil =>
    intro _
    rfl
  | cons nt rest ih =>
    intro hcnt
    rw [List.count_cons] at hcnt
    cases nt with
    | false =>
      have : List.count true rest ≤ 1 := by
        simp at hcnt
        omega
      rw [show allocPagesLoop (false :: rest) (some ()) = allocPagesLoop rest (some ()) from rfl,
        ih this]
      simp
    | true =>
      have hz : List.count true rest = 0 := by
        simp at hcnt
        omega
      have hnm : true ∉ rest := by
        intro hmem
        have := List.count_pos_iff.mpr hmem
        omega
      have hall : rest.all (fun nt => !nt) = true := by
        rw [List.all_eq_true]
        intro x hx
        cases x with
        | false => rfl
        | true => exact absurd hx hnm
      rw [show allocPagesLoop (true :: rest) (some ()) = allocPagesLoop rest none from rfl,
        allocPagesLoop_all_false rest none hall, if_pos (List.mem_cons_self true rest)]

/-- C7: the growth discipline of `HeapAllocator::alloc`: (a) pages needing
no page table are installed by `set_page_no_alloc` without backing memory
and leave the reserve untouched; (b) with a full reserve and at most one
page needing a table, growth succeeds, the reserve is consumed only on the
`AllocError` retry, and a successful `Reserved::allocate()` replenishes it;
(c) if the replenishment fails the reserve is recorded as empty; (d) a
later growth needing a table with an empty reserve fails with an error and
leaves the heap state (top and reserve) unchanged. -/
theorem heap_reserve_discipline :
    ∀ (st : HeapSt) (pages : List Bool) (growTo : ℕ) (rep : Option Unit),
      (pages.all (fun nt => !nt) = true → allocPagesLoop pages st.reserve = (st.reserve, true)) ∧
      (st.reserve = some () → List.count true pages ≤ 1 →
        heapGrow st pages growTo (some ()) = ({ top := growTo, reserve := some () }, true)) ∧
      (st.reserve = some () → true ∈ pages →
        (heapGrow st pages growTo none).1.reserve = none) ∧
      (st.reserve = none → true ∈ pages → heapGrow st pages growTo rep = (st, false)) := by
  intro st pages growTo rep
  refine ⟨fun hall => allocPagesLoop_all_false pages st.reserve hall, ?_, ?_, ?_⟩
  · intro hres hcnt
    unfold heapGrow
    rw [hres, allocPagesLoop_le_one pages hcnt]
    by_cases hmem : true ∈ pages
    · rw [if_pos hmem]
      rfl
    · rw [if_neg hmem]
      rfl
  · intro hres hmem
    unfold heapGrow
    rw [hres]
    have h1 : (allocPagesLoop pages (some ())).1 = none :=
      allocPagesLoop_reserve_gone pages (some ()) hmem
    rcases hL : allocPagesLoop pages (some ()) with ⟨r, b⟩
    rw [hL] at h1
    simp only at h1
    subst h1
    cases b with
    | false => rfl
    | true => rfl
  · intro hres hmem
    unfold heapGrow
    rw [hres, allocPagesLoop_none_fails pages hmem]
    have hid : ({ top := st.top, reserve := none } : HeapSt) = st := by
      cases st with
      | mk t r =>
        simp only at hres
        rw [hres]
    show ({ top := st.top, reserve := none }, false) = (st, false)
    rw [hid]

/-- witness for C7: a two-page growth whose second page needs a table: the
reserve is consumed and replenished; and the follow-up failure case with an
empty reserve. -/
theorem heap_reserve_discipline_witness :
    heapGrow ⟨4096, some ()⟩ [false, true] 20480 (some ()) = (⟨20480, some ()⟩, true) ∧
      heapGrow ⟨4096, none⟩ [false, true] 20480 (some ()) = (⟨4096, none⟩, false) :=
  ⟨(heap_reserve_discipline ⟨4096, some ()⟩ [false, true] 20480 (some ())).2.1 rfl (by decide),
    (heap_reserve_discipline ⟨4096, none⟩ [false, true] 20480 (some ())).2.2.2 rfl
      (by decide)⟩

/-! ## C2 — copy-on-write fork (src/src/arch/i586/tasks.rs) -/

/-- C2 counterexample: a parent directory with one present, writable user
page at frame 42.  After `fork_task` the parent's entry for that page is
unchanged — still writable, not copy-on-write — whereas the claim requires
the fork to apply writable=false, copy-on-write=true to the parent's own
entry so its future writes trap; `copy_on_write_from` never writes through
`orig_page`. -/
theorem cow_fork_parent_unchanged_cex :
    lookupPage (fork_task cexParent [] (fun _ => 0)).parentUser 0 0 =
      some ⟨false, true, false, 42⟩ := by decide

/-- C2 amended: for every user page present in the parent, the fork copies
the entry into the child with writable=false and copy-on-write set iff the
parent entry was writable or already copy-on-write; the parent's entries
are left unchanged (the parent's future writes do not trap); the frame's
reference count is incremented; the kernel half is copied by reference
without copy-on-write. -/
theorem cow_fork_amended :
    ∀ (P K : UserDir) (refs : ℕ → ℕ) (i j : ℕ) (p : Page),
      lookupPage P i j = some p → p.unused = false →
      lookupPage (fork_task P K refs).childUser i j =
          some ⟨false, false, p.copyOnWrite || p.readWrite, p.address⟩ ∧
        (fork_task P K refs).parentUser = P ∧
        (fork_task P K refs).childKernel = K ∧
        refs p.address + 1 ≤ (fork_task P K refs).refs p.address := by
  intro P K refs i j p hlk hp
  obtain ⟨t, ht, htj⟩ : ∃ t, lookupTable P i = some t ∧ t[j]? = some p :=
    Option.bind_eq_some.mp hlk
  have hPi : P[i]? = some (some t) := Option.join_eq_some.mp ht
  have hmem : p ∈ t := List.getElem?_mem htj
  have hnall : ¬(t.all (fun q => q.unused) = true) := by
    intro hco
    have := List.all_eq_true.mp hco p hmem
    rw [hp] at this
    exact Bool.false_ne_true this
  have hct : cowTable t = some (t.map childPage) := by
    unfold cowTable
    rw [if_neg hnall]
  refine ⟨?_, rfl, rfl, ?_⟩
  · show ((fork_task P K refs).childUser[i]?.join).bind (fun t => t[j]?) =
      some ⟨false, false, p.copyOnWrite || p.readWrite, p.address⟩
    have hc : (fork_task P K refs).childUser[i]? = some ((some t).bind cowTable) := by
      show (P.map (fun ot => ot.bind cowTable))[i]? = some ((some t).bind cowTable)
      rw [List.getElem?_map, hPi]
      rfl
    rw [hc]
    show (cowTable t).bind (fun t => t[j]?) = _
    rw [hct]
    show (t.map childPage)[j]? = _
    rw [List.getElem?_map, htj]
    show some (childPage p) = _
    unfold childPage
    rw [hp]
    show some (cowPage p) = _
    unfold cowPage cowFlags
    cases hrw : p.readWrite with
    | false => simp [hrw]
    | true => simp [hrw]
  · show refs p.address + 1 ≤ addRefs refs (copy_on_write_from P).2 p.address
    rw [addRefs_apply]
    have hmemref : p.address ∈ (copy_on_write_from P).2 := by
      show p.address ∈ P.flatMap (fun ot => (ot.map tableRefs).getD [])
      rw [List.mem_flatMap]
      refine ⟨some t, List.getElem?_mem hPi, ?_⟩
      show p.address ∈ tableRefs t
      unfold tableRefs
      rw [List.mem_map]
      refine ⟨p, ?_, rfl⟩
      rw [List.mem_filter]
      exact ⟨hmem, by rw [hp]; rfl⟩
    have := List.count_pos_iff.mpr hmemref
    omega

/-- witness for C2's amended theorem at the concrete one-page parent. -/
theorem cow_fork_amended_witness :
    lookupPage (fork_task cexParent [] (fun _ => 0)).childUser 0 0 =
        some ⟨false, false, true, 42⟩ ∧
      (fork_task cexParent [] (fun _ => 0)).parentUser = cexParent ∧
      (fork_task cexParent [] (fun _ => 0)).childKernel = [] ∧
      (fun _ : ℕ => 0) 42 + 1 ≤ (fork_task cexParent [] (fun _ => 0)).refs 42 :=
  cow_fork_amended cexParent [] (fun _ => 0) 0 0 ⟨false, true, false, 42⟩ rfl rfl

end OCK
